import Mathlib

/-!
Verification of the custom-error-pages responder
(src/images/custom-error-pages/main.go) against its specification.

The Go code is shallowly embedded: Go strings are lists of characters,
`os.Getenv` is a function from variable names to values (empty list for
an unset variable, as in Go), the filesystem is a partial map from paths
to file contents (`none` models an `os.Open` error), and the HTTP
response writer is replaced by an explicit record of the header `Set`
calls, the `WriteHeader` argument, the body and the recorded metric
events.  Go `map` iteration order is unspecified, so the iteration order
of the `refreshEndpoints` map is an explicit parameter of the embedding;
the declaration-order list is `refreshEndpointsList`.
-/

/-- A Go string, embedded as its list of characters. -/
abbrev GoStr := List Char

/-- Conversion of a Lean string literal to the embedded representation. -/
def gs (s : String) : GoStr := s.toList

/-- Model of `http.Header.Get`: value of the first pair with the given
key, or the empty string when absent (Go returns "" for a missing key).
Header names are used with their exact spelling throughout. -/
def headerGet (hs : List (GoStr × GoStr)) (k : GoStr) : GoStr :=
  match hs.find? (fun p => p.1 == k) with
  | some p => p.2
  | none => []

/-- Value of a decimal digit character, `none` for any other character. -/
def digitVal (c : Char) : Option Nat :=
  if '0' ≤ c ∧ c ≤ '9' then some (c.toNat - 48) else none

/-- Accumulating decimal parser over the remaining characters. -/
def parseDigitsAux : GoStr → Nat → Option Nat
  | [], acc => some acc
  | c :: cs, acc =>
    match digitVal c with
    | some d => parseDigitsAux cs (acc * 10 + d)
    | none => none

/-- Parse a non-empty all-digit string as a natural number. -/
def parseDigits (s : GoStr) : Option Nat :=
  if s = [] then none else parseDigitsAux s 0

/-- Model of Go `strconv.Atoi` on a 64-bit platform (the image is built
with `GOARCH=amd64`): an optional sign followed by at least one decimal
digit, rejected when the value does not fit in a signed 64-bit integer.
Returns `none` exactly when Go returns a non-nil error. -/
def goAtoi (s : GoStr) : Option Int :=
  match s with
  | '+' :: rest =>
    (parseDigits rest).bind fun n =>
      if n ≤ 9223372036854775807 then some (Int.ofNat n) else none
  | '-' :: rest =>
    (parseDigits rest).bind fun n =>
      if n ≤ 9223372036854775808 then some (-(Int.ofNat n)) else none
  | _ =>
    (parseDigits s).bind fun n =>
      if n ≤ 9223372036854775807 then some (Int.ofNat n) else none

/-- Model of Go `strconv.Itoa` (also the `%v` formatting of an `int`):
decimal digits, with a leading minus sign for negative values.
`Nat.toDigits 10` produces exactly the decimal digit characters. -/
def goItoa (n : Int) : GoStr :=
  if n < 0 then '-' :: Nat.toDigits 10 n.natAbs
  else Nat.toDigits 10 n.toNat

/-- The leading-separator normalization of main.go lines 165-167:
`if !strings.HasPrefix(ext, ".") { ext = "." + ext }`. -/
def normalizeExt (ext : GoStr) : GoStr :=
  if ['.'].isPrefixOf ext then ext else '.' :: ext

/-- Model of the Go mime package's `isTSpecial` (mime/grammar.go). -/
def isTSpecial (c : Char) : Bool :=
  ['(', ')', '<', '>', '@', ',', ';', ':', '\\', '"', '/',
   '[', ']', '?', '='].contains c

/-- Model of the Go mime package's `isTokenChar` (mime/grammar.go):
any US-ASCII character except SPACE, CTLs and tspecials. -/
def isTokenChar (c : Char) : Bool :=
  decide (32 < c.toNat) && decide (c.toNat < 127) && !(isTSpecial c)

/-- Model of the Go mime package's `consumeToken` (mime/mediatype.go):
split at the first non-token character. -/
def consumeToken (v : GoStr) : GoStr × GoStr :=
  (v.takeWhile isTokenChar, v.dropWhile isTokenChar)

/-- Model of the Go mime package's `checkMediaTypeDisposition`
(mime/mediatype.go): `true` when the string is a bare token or a
`token/token` pair with nothing after the subtype. -/
def checkMediaTypeDisposition (s : GoStr) : Bool :=
  let t := consumeToken s
  if t.1 = [] then false
  else if t.2 = [] then true
  else if !(['/'].isPrefixOf t.2) then false
  else
    let t2 := consumeToken (t.2.drop 1)
    if t2.1 = [] then false else t2.2 = []

/-- ASCII lower-casing (the media types used in this development are
ASCII, where Go's Unicode `ToLower` agrees with this). -/
def asciiLower (s : GoStr) : GoStr :=
  s.map fun c => if 'A' ≤ c ∧ c ≤ 'Z' then Char.ofNat (c.toNat + 32) else c

/-- ASCII whitespace test (agrees with Go's `unicode.IsSpace` on the
ASCII media types used in this development). -/
def isSpaceGo (c : Char) : Bool := [' ', '\t', '\n', '\r'].contains c

/-- Trim leading and trailing whitespace, as `strings.TrimSpace`. -/
def trimSpace (s : GoStr) : GoStr :=
  ((s.dropWhile isSpaceGo).reverse.dropWhile isSpaceGo).reverse

/-- The extension table of the Go mime package (mime/type.go,
`builtinTypesLower` regrouped by media type), each extension list given
in the sorted order in which `mime.ExtensionsByType` returns it (the Go
standard library sorts the list before returning it).  The binary runs
in a container without OS mime files, so only the builtin table
applies. -/
def goBuiltinExtensions : List (GoStr × List GoStr) :=
  [ (gs "application/json", [gs ".json"]),
    (gs "application/pdf", [gs ".pdf"]),
    (gs "application/wasm", [gs ".wasm"]),
    (gs "image/avif", [gs ".avif"]),
    (gs "image/gif", [gs ".gif"]),
    (gs "image/jpeg", [gs ".jpeg", gs ".jpg"]),
    (gs "image/png", [gs ".png"]),
    (gs "image/svg+xml", [gs ".svg"]),
    (gs "image/webp", [gs ".webp"]),
    (gs "text/css", [gs ".css"]),
    (gs "text/html", [gs ".htm", gs ".html"]),
    (gs "text/javascript", [gs ".js", gs ".mjs"]),
    (gs "text/xml", [gs ".xml"]) ]

/-- Model of Go `mime.ExtensionsByType`: strip any parameter part,
trim and lower-case the media type, validate it as `type/subtype`
(`Except.error` models the non-nil Go error on a malformed type, the
path `errorHandler` treats as a parse failure), then look up the
builtin extension table; an unknown type yields `Except.ok []` with no
error, exactly as in Go.  Faithful for media-type strings without
parameters, which covers every instantiation in this development
(Go can additionally report an error for malformed parameters). -/
def goExtensionsByType (typ : GoStr) : Except Unit (List GoStr) :=
  let justType := asciiLower (trimSpace (typ.takeWhile fun c => !(c == ';')))
  if checkMediaTypeDisposition justType then
    match goBuiltinExtensions.lookup justType with
    | some exts => Except.ok exts
    | none => Except.ok []
  else Except.error ()

/-- Model of Go `strings.Contains`: `sub` occurs as a contiguous
substring of `s`, i.e. it is a prefix of some suffix of `s`. -/
def strContains (s sub : GoStr) : Bool :=
  (List.range (s.length + 1)).any fun i => sub.isPrefixOf (s.drop i)

/-- One entry of the `refreshEndpoints` map of main.go: the fixed
override filename and the name of the environment variable supplying
dynamic override content. -/
structure RouteConfig where
  file : GoStr
  env : GoStr
deriving DecidableEq, Repr

/-- The `refreshEndpoints` configuration of main.go lines 115-121 in
declaration order.  In Go this is a map, so the order in which
`modifyOutput` iterates it is unspecified; the embedding takes the
iteration order as an explicit list parameter, of which this list (and
any permutation of it) is a possible value. -/
def refreshEndpointsList : List (GoStr × RouteConfig) :=
  [ (gs "/version-checks/fresha",
      { file := gs "refresh-fresha.json",
        env := gs "REFRESH_FRESHA_MAINTENANCE" }),
    (gs "/version-checks/shedul",
      { file := gs "refresh-shedul.json",
        env := gs "REFRESH_SHEDUL_MAINTENANCE" }) ]

/-- The `refreshHeaders` map of main.go lines 110-114, as the list of
header `Set` calls it produces (the three keys are distinct, so the Go
map iteration order does not affect the resulting header state). -/
def refreshHeaders (origin : GoStr) : List (GoStr × GoStr) :=
  [ (gs "Content-Type", gs "application/vnd.api+json; charset=utf-8"),
    (gs "Access-Control-Allow-Origin", origin),
    (gs "Access-Control-Allow-Credentials", gs "true") ]

/-- Result of `modifyOutput`: the header `Set` calls it performed and
the `(filename, content, customCode)` triple it returns. -/
structure ModifyResult where
  headerOps : List (GoStr × GoStr)
  filename : GoStr
  content : Option GoStr
  customCode : Int
deriving DecidableEq, Repr

/-- Embedding of `modifyOutput` (main.go lines 83-107).  `filename`
starts as `path/ingressCode ++ ext`; `content` and `customCode` start
as the Go zero values `nil` and `0`.  The loop body translates
`if os.Getenv(config["env"]) != "" ... else if strings.Contains(uri,
endpoint) ...` literally; `endpoints` is the iteration order of the Go
map.  The `service` parameter is only logged in Go and the `returnCode`
parameter is unused there, as here. -/
def modifyOutput (env : GoStr → GoStr) (ext path service uri : GoStr)
    (headers : List (GoStr × GoStr)) (endpoints : List (GoStr × RouteConfig))
    (ingressCode returnCode : Int) : ModifyResult :=
  let filename0 := path ++ gs "/" ++ goItoa ingressCode ++ ext
  let fin := endpoints.foldl
    (fun (acc : GoStr × Option GoStr × Int) (e : GoStr × RouteConfig) =>
      if env e.2.env ≠ [] then (acc.1, some (env e.2.env), acc.2.2)
      else if strContains uri e.1 then (path ++ gs "/" ++ e.2.file, acc.2.1, 200)
      else acc)
    (filename0, none, 0)
  { headerOps := headers, filename := fin.1, content := fin.2.1,
    customCode := fin.2.2 }

/-- An incoming request: its headers and protocol version. -/
structure GoRequest where
  headers : List (GoStr × GoStr)
  protoMajor : Int
  protoMinor : Int
deriving DecidableEq, Repr

/-- The observable effects of one run of the handler: the sequence of
response-header `Set` calls (later calls override earlier ones for the
same key), the argument of the `WriteHeader` call if any, the body
bytes, whether `http.NotFound` terminated the request, the paths passed
to `os.Open` in order, the labels of the recorded metric events, and a
marker for the string-index expression `scode[0]` being evaluated on an
empty string (which would panic in Go). -/
structure GoResponse where
  headerOps : List (GoStr × GoStr)
  status : Option Int
  body : GoStr
  notFound : Bool
  opens : List GoStr
  metricIncLabels : List GoStr
  metricObsLabels : List GoStr
  indexPanic : Bool
deriving DecidableEq, Repr

/-- The protocol label of main.go lines 206-207:
`fmt.Sprintf("%s.%s", strconv.Itoa(r.ProtoMajor), strconv.Itoa(r.ProtoMinor))`. -/
def protoLabel (r : GoRequest) : GoStr :=
  goItoa r.protoMajor ++ gs "." ++ goItoa r.protoMinor

/-- The fallback path construction of main.go lines 183-184:
`scode := strconv.Itoa(code); fmt.Sprintf("%v/%cxx%v", path, scode[0], ext)`.
The `none` branch models the out-of-bounds index `scode[0]` on an empty
string; claim C10 shows it is unreachable. -/
def fallbackFilename (path : GoStr) (code : Int) (ext : GoStr) : Option GoStr :=
  match goItoa code with
  | [] => none
  | c :: _ => some (path ++ gs "/" ++ [c] ++ gs "xx" ++ ext)

/-- The header `Set` calls performed by `http.Error` inside
`http.NotFound`. -/
def notFoundHeaderOps : List (GoStr × GoStr) :=
  [ (gs "Content-Type", gs "text/plain; charset=utf-8"),
    (gs "X-Content-Type-Options", gs "nosniff") ]

/-- Embedding of main.go lines 171-209, from `if content != nil` to the
metric recording.  Literal content: write `customCode` and the content,
then fall through to the metrics.  Otherwise open `filename`; on
success write `customCode` and the file, then the metrics; on failure
open the class-level fallback file, and on success write `code` (the
un-overridden code) and the file and return BEFORE the metric recording
(the early `return` at line 195); when both files fail, `http.NotFound`
terminates the request, also before the metric recording. -/
def serveResponse (headerOps : List (GoStr × GoStr)) (path ext filename : GoStr)
    (content : Option GoStr) (customCode code : Int)
    (fs : GoStr → Option GoStr) (r : GoRequest) : GoResponse :=
  match content with
  | some c =>
    { headerOps := headerOps, status := some customCode, body := c,
      notFound := false, opens := [],
      metricIncLabels := [protoLabel r], metricObsLabels := [protoLabel r],
      indexPanic := false }
  | none =>
    match fs filename with
    | some bytes =>
      { headerOps := headerOps, status := some customCode, body := bytes,
        notFound := false, opens := [filename],
        metricIncLabels := [protoLabel r], metricObsLabels := [protoLabel r],
        indexPanic := false }
    | none =>
      match fallbackFilename path code ext with
      | none =>
        { headerOps := headerOps, status := none, body := [],
          notFound := false, opens := [filename],
          metricIncLabels := [], metricObsLabels := [],
          indexPanic := true }
      | some fb =>
        match fs fb with
        | some bytes =>
          { headerOps := headerOps, status := some code, body := bytes,
            notFound := false, opens := [filename, fb],
            metricIncLabels := [], metricObsLabels := [],
            indexPanic := false }
        | none =>
          { headerOps := headerOps ++ notFoundHeaderOps, status := some 404,
            body := gs "404 page not found\n",
            notFound := true, opens := [filename, fb],
            metricIncLabels := [], metricObsLabels := [],
            indexPanic := false }

/-- The format and extension resolution of main.go lines 141-156: an
absent format header defaults to `text/html`; a mime lookup error
replaces `format` by `text/html` and keeps the default extension
`html`; an empty extension list keeps the default extension; otherwise
the first listed extension is taken. -/
def resolveFormat (mimeDB : GoStr → Except Unit (List GoStr)) (raw : GoStr) :
    GoStr × GoStr :=
  let format := if raw = [] then gs "text/html" else raw
  match mimeDB format with
  | Except.error _ => (gs "text/html", gs "html")
  | Except.ok [] => (format, gs "html")
  | Except.ok (c :: _) => (format, c)

/-- The Request Classifier, main.go lines 141-167: the resolved format
string (set verbatim as the outgoing Content-Type), the normalized
extension, and the status code (`404` when `strconv.Atoi` fails on the
`X-Code` header). -/
def classify (mimeDB : GoStr → Except Unit (List GoStr)) (r : GoRequest) :
    GoStr × GoStr × Int :=
  let fe := resolveFormat mimeDB (headerGet r.headers (gs "X-Format"))
  let code : Int :=
    match goAtoi (headerGet r.headers (gs "X-Code")) with
    | some n => n
    | none => 404
  (fe.1, normalizeExt fe.2, code)

/-- The debug header echoing of main.go lines 128-140: with a non-empty
`DEBUG` environment variable, all routing headers of the request are
echoed back as response headers. -/
def debugOps (env : GoStr → GoStr) (r : GoRequest) : List (GoStr × GoStr) :=
  if env (gs "DEBUG") ≠ [] then
    [ (gs "X-Format", headerGet r.headers (gs "X-Format")),
      (gs "X-Code", headerGet r.headers (gs "X-Code")),
      (gs "Content-Type", headerGet r.headers (gs "Content-Type")),
      (gs "X-Original-URI", headerGet r.headers (gs "X-Original-URI")),
      (gs "X-Namespace", headerGet r.headers (gs "X-Namespace")),
      (gs "X-Ingress-Name", headerGet r.headers (gs "X-Ingress-Name")),
      (gs "X-Service-Name", headerGet r.headers (gs "X-Service-Name")),
      (gs "X-Service-Port", headerGet r.headers (gs "X-Service-Port")),
      (gs "X-Request-ID", headerGet r.headers (gs "X-Request-ID")) ]
  else []

/-- Embedding of the handler returned by `errorHandler(path)` in
main.go lines 109-210.  `env` models `os.Getenv`, `fs` models
`os.Open` (`none` is an open error), `mimeDB` models
`mime.ExtensionsByType`, and `endpointsOrder` is the order in which the
`range` loop of `modifyOutput` happens to iterate the
`refreshEndpoints` map (any permutation of `refreshEndpointsList`).
For a request whose `X-Service-Name` is exactly `refresh`,
`modifyOutput` replaces the filename, content and `customCode`;
otherwise the classifier's `path/code ++ ext` file and code stand. -/
def errorHandler (path : GoStr) (env : GoStr → GoStr)
    (fs : GoStr → Option GoStr) (mimeDB : GoStr → Except Unit (List GoStr))
    (endpointsOrder : List (GoStr × RouteConfig)) (r : GoRequest) : GoResponse :=
  let cls := classify mimeDB r
  let format := cls.1
  let ext := cls.2.1
  let code := cls.2.2
  let baseOps := debugOps env r ++ [(gs "Content-Type", format)]
  let uri := headerGet r.headers (gs "X-Original-URI")
  let serviceName := headerGet r.headers (gs "X-Service-Name")
  if serviceName = gs "refresh" then
    let m := modifyOutput env ext path serviceName uri
      (refreshHeaders (headerGet r.headers (gs "Origin"))) endpointsOrder code 200
    serveResponse (baseOps ++ m.headerOps) path ext m.filename m.content
      m.customCode code fs r
  else
    serveResponse baseOps path ext (path ++ gs "/" ++ goItoa code ++ ext) none
      code code fs r

/-- The final value of a response header after a sequence of `Set`
calls: the last `Set` for the key wins. -/
def headerFinal (ops : List (GoStr × GoStr)) (k : GoStr) : Option GoStr :=
  (ops.reverse.find? (fun p => p.1 == k)).map (fun p => p.2)

/-- The `(filename, content, customCode)` selection of main.go lines
168-178, as `serveResponse` receives it: for a `refresh` request the
triple returned by `modifyOutput`, otherwise the classifier's
`path/code ++ ext` file with no content and `customCode = code`.  The
lemma `errorHandler_eq_resolved` below proves that `errorHandler` is
exactly `serveResponse` applied to this selection. -/
def resolveSelection (path : GoStr) (env : GoStr → GoStr)
    (mimeDB : GoStr → Except Unit (List GoStr))
    (order : List (GoStr × RouteConfig)) (r : GoRequest) :
    GoStr × Option GoStr × Int :=
  let cls := classify mimeDB r
  let serviceName := headerGet r.headers (gs "X-Service-Name")
  if serviceName = gs "refresh" then
    let m := modifyOutput env cls.2.1 path serviceName
      (headerGet r.headers (gs "X-Original-URI"))
      (refreshHeaders (headerGet r.headers (gs "Origin"))) order cls.2.2 200
    (m.filename, m.content, m.customCode)
  else (path ++ gs "/" ++ goItoa cls.2.2 ++ cls.2.1, none, cls.2.2)

/-- The header `Set` calls accumulated before the response is served:
the debug echoes, the classifier's Content-Type, and — for a `refresh`
request — the override headers set by `modifyOutput`. -/
def resolvedHeaderOps (env : GoStr → GoStr)
    (mimeDB : GoStr → Except Unit (List GoStr)) (r : GoRequest) :
    List (GoStr × GoStr) :=
  debugOps env r ++ [(gs "Content-Type", (classify mimeDB r).1)] ++
    (if headerGet r.headers (gs "X-Service-Name") = gs "refresh" then
      refreshHeaders (headerGet r.headers (gs "Origin"))
    else [])

/-! Concrete environments, filesystems and requests used to instantiate
the theorems below. -/

/-- Environment with every variable unset. -/
def envNone : GoStr → GoStr := fun _ => []

/-- Environment with only `REFRESH_FRESHA_MAINTENANCE` set. -/
def envFresha : GoStr → GoStr := fun s =>
  if s = gs "REFRESH_FRESHA_MAINTENANCE" then gs "on" else []

/-- Environment with both maintenance variables set, to distinct values. -/
def envBoth : GoStr → GoStr := fun s =>
  if s = gs "REFRESH_FRESHA_MAINTENANCE" then gs "fresha is down"
  else if s = gs "REFRESH_SHEDUL_MAINTENANCE" then gs "shedul is down"
  else []

/-- Filesystem on which every open fails. -/
def fsEmpty : GoStr → Option GoStr := fun _ => none

/-- Filesystem holding only the exact-status file `/www/503.html`. -/
def fsPrimary503 : GoStr → Option GoStr := fun p =>
  if p = gs "/www/503.html" then some (gs "error page 503") else none

/-- Filesystem holding only the class-level fallback file `/www/5xx.html`. -/
def fsFallback5xx : GoStr → Option GoStr := fun p =>
  if p = gs "/www/5xx.html" then some (gs "class fallback") else none

/-- Filesystem holding only the default file `/www/404.html`. -/
def fsNotFoundPage : GoStr → Option GoStr := fun p =>
  if p = gs "/www/404.html" then some (gs "not found page") else none

/-- A mime database mapping every type to an empty extension list. -/
def mimeEmpty : GoStr → Except Unit (List GoStr) := fun _ => Except.ok []

/-- Refresh-service request with no other headers (C1 failing input). -/
def reqC1 : GoRequest := ⟨[(gs "X-Service-Name", gs "refresh")], 1, 1⟩

/-- Refresh-service request with code 503 and a URI matching no route
(C3 failing input).  `X-Format` is `foo/`, which the mime package
rejects, so the extension stays `.html`. -/
def reqC3 : GoRequest :=
  ⟨[(gs "X-Format", gs "foo/"), (gs "X-Code", gs "503"),
    (gs "X-Service-Name", gs "refresh"),
    (gs "X-Original-URI", gs "/some/other/path")], 1, 1⟩

/-- Plain request with code 503 and a mime-rejected format (C2). -/
def reqFallback : GoRequest :=
  ⟨[(gs "X-Format", gs "foo/"), (gs "X-Code", gs "503")], 1, 1⟩

/-- Request whose format header is the malformed media type `foo/` (C5). -/
def reqBadFormat : GoRequest := ⟨[(gs "X-Format", gs "foo/")], 1, 1⟩

/-- Request whose format header is `application/json` (C5 witness). -/
def reqJson : GoRequest := ⟨[(gs "X-Format", gs "application/json")], 1, 1⟩

/-- Request with no headers at all (C7). -/
def reqNoHeaders : GoRequest := ⟨[], 1, 1⟩

/-- Request with code 503 only (C6 witness). -/
def req503 : GoRequest := ⟨[(gs "X-Code", gs "503")], 1, 1⟩

/-- Request whose code header is non-numeric (C8 witness). -/
def reqBadCode : GoRequest := ⟨[(gs "X-Code", gs "abc")], 1, 1⟩

/-! Helper lemmas. -/

lemma toDigitsCore_length_le (b : Nat) :
    ∀ (fuel n : Nat) (ds : List Char),
      ds.length ≤ (Nat.toDigitsCore b fuel n ds).length := by
  intro fuel
  induction fuel with
  | zero => intro n ds; exact Nat.le_refl _
  | succ f ih =>
    intro n ds
    simp only [Nat.toDigitsCore]
    split
    · exact Nat.le_succ _
    · exact Nat.le_trans (Nat.le_succ _) (ih (n / b) ((n % b).digitChar :: ds))

lemma toDigits_ne_nil (b n : Nat) : Nat.toDigits b n ≠ [] := by
  unfold Nat.toDigits
  simp only [Nat.toDigitsCore]
  split
  · simp
  · intro h
    have hlen := toDigitsCore_length_le b n (n / b) [Nat.digitChar (n % b)]
    rw [h] at hlen
    simp at hlen

lemma goItoa_ne_nil (n : Int) : goItoa n ≠ [] := by
  unfold goItoa
  split
  · simp
  · exact toDigits_ne_nil 10 _

lemma modifyOutput_content_aux (env : GoStr → GoStr) (path uri : GoStr) :
    ∀ (l : List (GoStr × RouteConfig)) (acc : GoStr × Option GoStr × Int),
      (l.foldl
        (fun (acc : GoStr × Option GoStr × Int) (e : GoStr × RouteConfig) =>
          if env e.2.env ≠ [] then (acc.1, some (env e.2.env), acc.2.2)
          else if strContains uri e.1 then
            (path ++ gs "/" ++ e.2.file, acc.2.1, 200)
          else acc)
        acc).2.1 =
      match (l.filterMap fun e =>
          if env e.2.env = [] then none else some (env e.2.env)).getLast? with
      | some v => some v
      | none => acc.2.1 := by
  intro l
  induction l with
  | nil => intro acc; simp
  | cons e t ih =>
    intro acc
    rw [List.foldl_cons, ih, List.filterMap_cons]
    by_cases h : env e.2.env = []
    · have hstep :
          ((if env e.2.env ≠ [] then (acc.1, some (env e.2.env), acc.2.2)
            else if strContains uri e.1 then
              (path ++ gs "/" ++ e.2.file, acc.2.1, 200)
            else acc) : GoStr × Option GoStr × Int).2.1 = acc.2.1 := by
        rw [if_neg (by simp [h])]
        by_cases hu : strContains uri e.1 = true
        · simp [hu]
        · simp [hu]
      rw [hstep]
      simp [h]
    · have hne : env e.2.env ≠ [] := h
      have hstep :
          ((if env e.2.env ≠ [] then (acc.1, some (env e.2.env), acc.2.2)
            else if strContains uri e.1 then
              (path ++ gs "/" ++ e.2.file, acc.2.1, 200)
            else acc) : GoStr × Option GoStr × Int).2.1 = some (env e.2.env) := by
        rw [if_pos hne]
      rw [hstep, if_neg h]
      cases hrest : (t.filterMap fun e =>
          if env e.2.env = [] then none else some (env e.2.env)) with
      | nil => simp
      | cons x xs =>
        rw [List.getLast?_cons_cons]
        cases hg : (x :: xs).getLast? with
        | none =>
          rw [List.getLast?_eq_none_iff] at hg
          exact absurd hg (by simp)
        | some w => simp

/-! Claim theorems. -/

/-- Claim C9: the leading-separator extension normalization of main.go
lines 165-167 is idempotent — applying it twice yields the same string
as applying it once — and an extension already starting with `.` is
left unchanged. -/
theorem c9_normalizeExt_idempotent (s : GoStr) :
    normalizeExt (normalizeExt s) = normalizeExt s ∧
    (['.'].isPrefixOf s = true → normalizeExt s = s) := by
  have hdot : ∀ t : GoStr, ['.'].isPrefixOf ('.' :: t) = true := by
    intro t
    simp [List.isPrefixOf]
  constructor
  · by_cases h : ['.'].isPrefixOf s = true
    · simp [normalizeExt, h]
    · simp [normalizeExt, h, hdot]
  · intro h
    simp [normalizeExt, h]

/-- Claim C9 witness: the normalization at the concrete extension
`.json`, already dot-led, is unchanged. -/
theorem c9_normalizeExt_idempotent_witness :
    normalizeExt (gs ".json") = gs ".json" :=
  (c9_normalizeExt_idempotent (gs ".json")).2 (by decide)

/-- Claim C10: `strconv.Itoa` never returns an empty string — also for
zero and negative codes — so the index `scode[0]` in the fallback-path
construction of main.go lines 183-184 is always in bounds and the
out-of-bounds branch of `fallbackFilename` is unreachable. -/
theorem c10_itoa_nonempty_fallback_total (code : Int) (path ext : GoStr) :
    goItoa code ≠ [] ∧ (fallbackFilename path code ext).isSome = true := by
  refine ⟨goItoa_ne_nil code, ?_⟩
  unfold fallbackFilename
  cases h : goItoa code with
  | nil => exact absurd h (goItoa_ne_nil code)
  | cons c cs => rfl

/-- Claim C4 (amended): relative to a given iteration order of the
configured routes, `modifyOutput` resolves as literal content the value
of the environment variable of the LAST route in that order whose
variable is non-empty (`none` when no variable is set) — for any order,
any routes and any inputs. -/
theorem c4_last_set_route_wins (env : GoStr → GoStr)
    (ext path service uri : GoStr) (headers : List (GoStr × GoStr))
    (endpoints : List (GoStr × RouteConfig)) (ingressCode returnCode : Int) :
    (modifyOutput env ext path service uri headers endpoints
        ingressCode returnCode).content =
      (endpoints.filterMap fun e =>
        if env e.2.env = [] then none else some (env e.2.env)).getLast? := by
  have h := modifyOutput_content_aux env path uri endpoints
    (path ++ gs "/" ++ goItoa ingressCode ++ ext, none, 0)
  cases hg : (endpoints.filterMap fun e =>
      if env e.2.env = [] then none else some (env e.2.env)).getLast? with
  | none =>
    rw [hg] at h
    exact h
  | some v =>
    rw [hg] at h
    exact h

/-- Claim C4 counterexample: the reversed route list is a permutation
of the declared one — hence a possible Go map iteration order — and
with both maintenance variables set the two orders resolve different
literal content, so the resolver's outcome is not determined by the
configuration alone. -/
theorem c4_order_dependent_counterexample :
    List.Perm refreshEndpointsList.reverse refreshEndpointsList ∧
    (modifyOutput envBoth (gs ".html") (gs "/www") (gs "refresh") []
        (refreshHeaders []) refreshEndpointsList 404 200).content ≠
      (modifyOutput envBoth (gs ".html") (gs "/www") (gs "refresh") []
        (refreshHeaders []) refreshEndpointsList.reverse 404 200).content :=
  ⟨List.reverse_perm _, by decide⟩

/-- Claim C1 failing input: a `refresh` request with
`REFRESH_FRESHA_MAINTENANCE` set to `on` and an original URI matching
no route key.  The body is the literal variable value, but the code
passed to `WriteHeader` is `0` — `customCode` keeps its Go zero value
in the environment-variable branch of `modifyOutput` — not `200`
(`net/http` panics on status code 0, so the real binary aborts the
request here). -/
theorem c1_env_override_writes_status_zero :
    (errorHandler (gs "/www") envFresha fsEmpty goExtensionsByType
        refreshEndpointsList reqC1).body = gs "on" ∧
    (errorHandler (gs "/www") envFresha fsEmpty goExtensionsByType
        refreshEndpointsList reqC1).status = some 0 ∧
    (errorHandler (gs "/www") envFresha fsEmpty goExtensionsByType
        refreshEndpointsList reqC1).status ≠ some 200 := by
  decide

/-- Claim C3 failing input: a `refresh` request with code `503`, no
maintenance variable set and a URI matching no route key.  The served
file is the classifier's `/www/503.html` as claimed, but the status
written is `0` — the zero-value `customCode` returned by
`modifyOutput` — not the classified `503` (`net/http` panics on status
code 0, so the real binary aborts the request here). -/
theorem c3_no_override_writes_status_zero :
    (errorHandler (gs "/www") envNone fsPrimary503 goExtensionsByType
        refreshEndpointsList reqC3).opens = [gs "/www/503.html"] ∧
    (errorHandler (gs "/www") envNone fsPrimary503 goExtensionsByType
        refreshEndpointsList reqC3).body = gs "error page 503" ∧
    (errorHandler (gs "/www") envNone fsPrimary503 goExtensionsByType
        refreshEndpointsList reqC3).status = some 0 ∧
    (classify goExtensionsByType reqC3).2.2 = 503 := by
  decide

/-- Claim C2 counterexample: a request answered from the class-level
fallback file `/www/5xx.html` emits a body (and is not the not-found
path), yet records no count increment and no duration observation —
the fallback branch returns before the metric recording. -/
theorem c2_fallback_emits_body_without_metrics :
    (errorHandler (gs "/www") envNone fsFallback5xx goExtensionsByType
        refreshEndpointsList reqFallback).body = gs "class fallback" ∧
    (errorHandler (gs "/www") envNone fsFallback5xx goExtensionsByType
        refreshEndpointsList reqFallback).notFound = false ∧
    (errorHandler (gs "/www") envNone fsFallback5xx goExtensionsByType
        refreshEndpointsList reqFallback).metricIncLabels = [] ∧
    (errorHandler (gs "/www") envNone fsFallback5xx goExtensionsByType
        refreshEndpointsList reqFallback).metricObsLabels = [] := by
  decide

/-- Claim C2 (amended): a request served from literal content or from
the primary file records exactly one count increment and one duration
observation, both labeled with the protocol version formatted as
major.minor; a request falling through to the class-level fallback file
records none — the fallback branch returns before the metric recording
— and a request on which both files fail to open also records none. -/
theorem c2_metrics_once_except_fallback (ops : List (GoStr × GoStr))
    (path ext filename : GoStr) (content : Option GoStr)
    (customCode code : Int) (fs : GoStr → Option GoStr) (r : GoRequest) :
    ((content ≠ none ∨ (fs filename).isSome = true) →
      (serveResponse ops path ext filename content customCode code fs
          r).metricIncLabels = [protoLabel r] ∧
      (serveResponse ops path ext filename content customCode code fs
          r).metricObsLabels = [protoLabel r]) ∧
    (content = none → fs filename = none →
      (serveResponse ops path ext filename content customCode code fs
          r).metricIncLabels = [] ∧
      (serveResponse ops path ext filename content customCode code fs
          r).metricObsLabels = []) := by
  cases content with
  | some c =>
    exact ⟨fun _ => ⟨rfl, rfl⟩, fun h => absurd h (by simp)⟩
  | none =>
    cases hf : fs filename with
    | some b =>
      constructor
      · intro _
        constructor <;> simp [serveResponse, hf]
      · intro _ h
        exact absurd h (by simp)
    | none =>
      constructor
      · intro h
        rcases h with h | h
        · exact absurd rfl h
        · simp at h
      · intro _ _
        cases hfb : fallbackFilename path code ext with
        | none =>
          constructor <;> simp [serveResponse, hf, hfb]
        | some fb =>
          cases hfs2 : fs fb with
          | some b =>
            constructor <;> simp [serveResponse, hf, hfb, hfs2]
          | none =>
            constructor <;> simp [serveResponse, hf, hfb, hfs2]

/-- Claim C2 witness: a concrete request served from literal content
records exactly one increment and one observation labeled `1.1`. -/
theorem c2_metrics_once_except_fallback_witness :
    (serveResponse [] (gs "/www") (gs ".html") (gs "/www/503.html")
        (some (gs "maintenance")) 200 503 fsEmpty reqC1).metricIncLabels =
      [protoLabel reqC1] ∧
    (serveResponse [] (gs "/www") (gs ".html") (gs "/www/503.html")
        (some (gs "maintenance")) 200 503 fsEmpty reqC1).metricObsLabels =
      [protoLabel reqC1] :=
  (c2_metrics_once_except_fallback [] (gs "/www") (gs ".html")
      (gs "/www/503.html") (some (gs "maintenance")) 200 503 fsEmpty reqC1).1
    (Or.inl (by simp))

/-- Claim C5 (amended): the format string the classifier resolves — the
value it sets as the outgoing Content-Type header — is the raw
`X-Format` header verbatim whenever that header is present and the mime
extension lookup returns without error (also when the lookup yields no
extensions); when the header is absent the resolved format is
`text/html`, and when the lookup returns an error the raw value is
DISCARDED and replaced by `text/html` (main.go line 150), contrary to
the claim's "preserved even when extension resolution failed". -/
theorem c5_content_type_verbatim_unless_error
    (mimeDB : GoStr → Except Unit (List GoStr)) (r : GoRequest) (f : GoStr)
    (hf : headerGet r.headers (gs "X-Format") = f) :
    (f ≠ [] → (∃ exts, mimeDB f = Except.ok exts) →
      (classify mimeDB r).1 = f) ∧
    (f = [] → (classify mimeDB r).1 = gs "text/html") ∧
    ((∃ u, mimeDB f = Except.error u) → f ≠ [] →
      (classify mimeDB r).1 = gs "text/html") := by
  refine ⟨?_, ?_, ?_⟩
  · intro hne hok
    obtain ⟨exts, hok⟩ := hok
    simp only [classify, resolveFormat, hf, if_neg hne, hok]
    cases exts with
    | nil => rfl
    | cons c cs => rfl
  · intro hemp
    have h2 : (if f = [] then gs "text/html" else f) = gs "text/html" :=
      if_pos hemp
    simp only [classify, resolveFormat, hf, h2]
    cases hdb : mimeDB (gs "text/html") with
    | error u => rfl
    | ok exts =>
      cases exts with
      | nil => rfl
      | cons c cs => rfl
  · intro herr hne
    obtain ⟨u, herr⟩ := herr
    simp only [classify, resolveFormat, hf, if_neg hne, herr]

/-- Claim C5 witness: for a request with `X-Format: application/json`,
accepted by the Go mime tables, the resolved Content-Type value is the
raw header verbatim. -/
theorem c5_content_type_verbatim_unless_error_witness :
    (classify goExtensionsByType reqJson).1 = gs "application/json" :=
  (c5_content_type_verbatim_unless_error goExtensionsByType reqJson
      (gs "application/json") (by decide)).1 (by decide)
    ⟨[gs ".json"], by rfl⟩

/-- Claim C5 counterexample: for a request whose `X-Format` header is
the malformed media type `foo/`, served normally from the default
`/www/404.html` file, the outgoing Content-Type header ends up as
`text/html`, not the raw header value — the mime lookup error
overwrites the format. -/
theorem c5_malformed_format_not_verbatim :
    headerGet reqBadFormat.headers (gs "X-Format") = gs "foo/" ∧
    (errorHandler (gs "/www") envNone fsNotFoundPage goExtensionsByType
        refreshEndpointsList reqBadFormat).body = gs "not found page" ∧
    headerFinal (errorHandler (gs "/www") envNone fsNotFoundPage
        goExtensionsByType refreshEndpointsList reqBadFormat).headerOps
        (gs "Content-Type") =
      some (gs "text/html") ∧
    gs "text/html" ≠ gs "foo/" := by
  decide

lemma errorHandler_eq_resolved (path : GoStr) (env : GoStr → GoStr)
    (fs : GoStr → Option GoStr) (mimeDB : GoStr → Except Unit (List GoStr))
    (order : List (GoStr × RouteConfig)) (r : GoRequest) :
    errorHandler path env fs mimeDB order r =
      serveResponse (resolvedHeaderOps env mimeDB r) path
        (classify mimeDB r).2.1
        (resolveSelection path env mimeDB order r).1
        (resolveSelection path env mimeDB order r).2.1
        (resolveSelection path env mimeDB order r).2.2
        (classify mimeDB r).2.2 fs r := by
  unfold errorHandler resolveSelection resolvedHeaderOps
  by_cases h : headerGet r.headers (gs "X-Service-Name") = gs "refresh"
  · simp [h, modifyOutput]
  · simp [h]

lemma serveResponse_fallback_file (ops : List (GoStr × GoStr))
    (path ext filename : GoStr) (customCode code : Int)
    (fs : GoStr → Option GoStr) (r : GoRequest) (fb b : GoStr)
    (h1 : fs filename = none)
    (h2 : fallbackFilename path code ext = some fb)
    (h3 : fs fb = some b) :
    (serveResponse ops path ext filename none customCode code fs
        r).status = some code ∧
    (serveResponse ops path ext filename none customCode code fs
        r).body = b ∧
    (serveResponse ops path ext filename none customCode code fs
        r).notFound = false := by
  simp [serveResponse, h1, h2, h3]

/-- Claim C6: for every request — refresh or not — whose resolved
selection carries no literal content and whose resolved filename is the
classifier's exact-status file `path/<code><ext>` (every non-refresh
request, and every refresh request on which no route triggered), when
opening that file fails and the class-level fallback file (first digit
of the code, then `xx`, then the extension) opens, the status written
is the classifier's code — never the selection's override `customCode`,
whatever value it carries (0 on the refresh no-trigger path, the
classifier's code on the non-refresh path) — and the body is the
fallback file's bytes. -/
theorem c6_fallback_preserves_original_code (path : GoStr)
    (env : GoStr → GoStr) (fs : GoStr → Option GoStr)
    (mimeDB : GoStr → Except Unit (List GoStr))
    (order : List (GoStr × RouteConfig)) (r : GoRequest) (fb b : GoStr)
    (hc : (resolveSelection path env mimeDB order r).2.1 = none)
    (hname : (resolveSelection path env mimeDB order r).1 =
      path ++ gs "/" ++ goItoa (classify mimeDB r).2.2 ++
        (classify mimeDB r).2.1)
    (h1 : fs (path ++ gs "/" ++ goItoa (classify mimeDB r).2.2 ++
        (classify mimeDB r).2.1) = none)
    (h2 : fallbackFilename path (classify mimeDB r).2.2
        (classify mimeDB r).2.1 = some fb)
    (h3 : fs fb = some b) :
    (errorHandler path env fs mimeDB order r).status =
      some (classify mimeDB r).2.2 ∧
    (errorHandler path env fs mimeDB order r).body = b ∧
    (errorHandler path env fs mimeDB order r).notFound = false := by
  rw [errorHandler_eq_resolved, hc, hname]
  exact serveResponse_fallback_file _ _ _ _
    (resolveSelection path env mimeDB order r).2.2 _ _ _ _ _ h1 h2 h3

/-- Claim C6 witness: a refresh request with code 503 on which no route
triggered — its selection carries `customCode` 0 and the classifier's
filename — with `/www/503.html` absent and `/www/5xx.html` present is
answered with the original status 503, not the selection's 0, and the
fallback bytes. -/
theorem c6_fallback_preserves_original_code_witness :
    (resolveSelection (gs "/www") envNone goExtensionsByType
        refreshEndpointsList reqC3).2.2 = 0 ∧
    (errorHandler (gs "/www") envNone fsFallback5xx goExtensionsByType
        refreshEndpointsList reqC3).status =
      some (classify goExtensionsByType reqC3).2.2 ∧
    (errorHandler (gs "/www") envNone fsFallback5xx goExtensionsByType
        refreshEndpointsList reqC3).body = gs "class fallback" ∧
    (errorHandler (gs "/www") envNone fsFallback5xx goExtensionsByType
        refreshEndpointsList reqC3).notFound = false :=
  have h := c6_fallback_preserves_original_code (gs "/www") envNone
    fsFallback5xx goExtensionsByType refreshEndpointsList reqC3
    (gs "/www/5xx.html") (gs "class fallback") (by decide) (by decide)
    (by decide) (by decide) (by decide)
  ⟨by decide, h.1, h.2.1, h.2.2⟩

lemma serveResponse_opens_first (ops : List (GoStr × GoStr))
    (path ext filename : GoStr) (customCode code : Int)
    (fs : GoStr → Option GoStr) (r : GoRequest) :
    (serveResponse ops path ext filename none customCode code fs
        r).opens.head? = some filename := by
  unfold serveResponse
  cases hf : fs filename with
  | some b => rfl
  | none =>
    cases hfb : fallbackFilename path code ext with
    | none => rfl
    | some fb =>
      cases hf2 : fs fb with
      | some b => simp [hf2]
      | none => simp [hf2]

lemma serveResponse_primary_file (ops : List (GoStr × GoStr))
    (path ext filename : GoStr) (customCode code : Int)
    (fs : GoStr → Option GoStr) (r : GoRequest) (b : GoStr)
    (hb : fs filename = some b) :
    (serveResponse ops path ext filename none customCode code fs
        r).status = some customCode ∧
    (serveResponse ops path ext filename none customCode code fs
        r).body = b := by
  unfold serveResponse
  rw [hb]
  exact ⟨rfl, rfl⟩

/-- Claim C7 (amended): for every request lacking the `X-Format`
header, under the Go mime package's builtin tables the resolved
content-type is `text/html` but the extension used for file selection
resolves to `.htm` — the FIRST entry of the sorted extension list for
`text/html` — not `.html`. -/
theorem c7_default_format_ext (r : GoRequest)
    (h : headerGet r.headers (gs "X-Format") = []) :
    (classify goExtensionsByType r).1 = gs "text/html" ∧
    (classify goExtensionsByType r).2.1 = gs ".htm" := by
  have hres : resolveFormat goExtensionsByType [] =
      (gs "text/html", gs ".htm") := by decide
  constructor
  · simp [classify, h, hres]
  · simp only [classify, h, hres]
    decide

/-- Claim C7 witness: the concrete headerless request resolves
content-type `text/html` and extension `.htm`. -/
theorem c7_default_format_ext_witness :
    (classify goExtensionsByType reqNoHeaders).1 = gs "text/html" ∧
    (classify goExtensionsByType reqNoHeaders).2.1 = gs ".htm" :=
  c7_default_format_ext reqNoHeaders (by decide)

/-- Claim C7 counterexample: for a request lacking `X-Format` the
extension resolves to `.htm`, which is not the claimed `.html`
(`mime.ExtensionsByType "text/html"` lists `.htm` before `.html`). -/
theorem c7_default_ext_is_not_html :
    headerGet reqNoHeaders.headers (gs "X-Format") = [] ∧
    (classify goExtensionsByType reqNoHeaders).2.1 = gs ".htm" ∧
    (classify goExtensionsByType reqNoHeaders).2.1 ≠ gs ".html" := by
  decide

/-- Claim C8: for every non-refresh request whose `X-Code` header is
absent or does not parse as an integer, the classifier resolves status
code 404; this code is used for file selection — the first file opened
is `path/404<ext>` — and, when that file opens, also as the response
status. -/
theorem c8_unparsable_code_defaults_404 (path : GoStr)
    (env : GoStr → GoStr) (fs : GoStr → Option GoStr)
    (mimeDB : GoStr → Except Unit (List GoStr))
    (order : List (GoStr × RouteConfig)) (r : GoRequest)
    (h : goAtoi (headerGet r.headers (gs "X-Code")) = none)
    (hs : headerGet r.headers (gs "X-Service-Name") ≠ gs "refresh") :
    (classify mimeDB r).2.2 = 404 ∧
    (errorHandler path env fs mimeDB order r).opens.head? =
      some (path ++ gs "/" ++ gs "404" ++ (classify mimeDB r).2.1) ∧
    ∀ b, fs (path ++ gs "/" ++ gs "404" ++ (classify mimeDB r).2.1) = some b →
      (errorHandler path env fs mimeDB order r).status = some 404 ∧
      (errorHandler path env fs mimeDB order r).body = b := by
  have hcode : (classify mimeDB r).2.2 = 404 := by
    simp [classify, h]
  have h404 : goItoa (classify mimeDB r).2.2 = gs "404" := by
    rw [hcode]
    decide
  refine ⟨hcode, ?_, ?_⟩
  · unfold errorHandler
    rw [if_neg hs]
    rw [serveResponse_opens_first]
    rw [h404]
  · intro b hb
    have hb2 : fs (path ++ gs "/" ++ goItoa (classify mimeDB r).2.2 ++
        (classify mimeDB r).2.1) = some b := by
      rw [h404]
      exact hb
    have hmain := serveResponse_primary_file
      (debugOps env r ++ [(gs "Content-Type", (classify mimeDB r).1)]) path
      (classify mimeDB r).2.1
      (path ++ gs "/" ++ goItoa (classify mimeDB r).2.2 ++
        (classify mimeDB r).2.1)
      (classify mimeDB r).2.2 (classify mimeDB r).2.2 fs r b hb2
    unfold errorHandler
    rw [if_neg hs]
    exact ⟨by rw [hmain.1, hcode], hmain.2⟩

/-- Claim C8 witness: a request with `X-Code: abc` and the default file
`/www/404.html` present resolves code 404, opens `/www/404.html` first
and answers with status 404 and that file's bytes. -/
theorem c8_unparsable_code_defaults_404_witness :
    (classify mimeEmpty reqBadCode).2.2 = 404 ∧
    (errorHandler (gs "/www") envNone fsNotFoundPage mimeEmpty
        refreshEndpointsList reqBadCode).opens.head? =
      some (gs "/www" ++ gs "/" ++ gs "404" ++
        (classify mimeEmpty reqBadCode).2.1) ∧
    ((errorHandler (gs "/www") envNone fsNotFoundPage mimeEmpty
        refreshEndpointsList reqBadCode).status = some 404 ∧
      (errorHandler (gs "/www") envNone fsNotFoundPage mimeEmpty
        refreshEndpointsList reqBadCode).body = gs "not found page") :=
  have h := c8_unparsable_code_defaults_404 (gs "/www") envNone
    fsNotFoundPage mimeEmpty refreshEndpointsList reqBadCode
    (by decide) (by decide)
  ⟨h.1, h.2.1, h.2.2 (gs "not found page") (by decide)⟩
